import Mathlib

/-!
Shallow embedding of the boot-information abstraction layer of the
Tensorlinx/utopia kernel (src/kernel/src/boot_info.rs, multiboot2.rs,
limine_entry.rs).

Conventions of the embedding:
* Machine integers (`u8`, `u32`, `u64`, `usize`) are modelled as `Nat`;
  every value read from a byte blob is reduced modulo the type's width.
* Raw memory is a `List Nat` of byte values; a read past the end of the
  list yields 0 (the code performs such reads only on malformed blobs).
* A null raw pointer is modelled as `Option.none`.
* A Rust computation that can panic (division by zero) or loop forever
  (the tag walk on a blob whose end tag is unreachable) returns a
  `RunResult`: `.ok` for a normal return, `.panics` for a panic,
  `.diverges` for an infinite loop.
-/

/-- Pixel format classification (boot_info.rs, `enum PixelFormat`). -/
inductive PixelFormat where
  | Rgb : PixelFormat
  | Bgr : PixelFormat
  | U8 : PixelFormat
  | Unknown : PixelFormat
  deriving DecidableEq, Repr

/-- Shared framebuffer descriptor (boot_info.rs, `struct FrameBufferInfo`). -/
structure FrameBufferInfo where
  width : Nat
  height : Nat
  stride : Nat
  pixel_format : PixelFormat
  bytes_per_pixel : Nat
  physical_address : Nat
  deriving DecidableEq, Repr

/-- Outcome of running a piece of kernel code: a normal return, a Rust
panic, or an infinite loop. -/
inductive RunResult (α : Type) where
  | ok : α → RunResult α
  | panics : RunResult α
  | diverges : RunResult α
  deriving DecidableEq, Repr

/-- Read one byte of a blob; a read past the end of the blob yields 0. -/
def readU8 (bytes : List Nat) (i : Nat) : Nat :=
  bytes.getD i 0 % 256

/-- Read a little-endian `u32` at byte offset `i`. -/
def readU32 (bytes : List Nat) (i : Nat) : Nat :=
  readU8 bytes i + 256 * readU8 bytes (i + 1) +
    65536 * readU8 bytes (i + 2) + 16777216 * readU8 bytes (i + 3)

/-- Read a little-endian `u64` at byte offset `i`. -/
def readU64 (bytes : List Nat) (i : Nat) : Nat :=
  readU32 bytes i + 4294967296 * readU32 bytes (i + 4)

/-- Little-endian encoding of a `u32`, for building concrete test blobs. -/
def u32le (n : Nat) : List Nat :=
  [n % 256, n / 256 % 256, n / 65536 % 256, n / 16777216 % 256]

/-- Little-endian encoding of a `u64`, for building concrete test blobs. -/
def u64le (n : Nat) : List Nat :=
  u32le (n % 4294967296) ++ u32le (n / 4294967296)

/-- The `tag_type` field of the tag header at byte offset `off`
(multiboot2.rs, `struct Tag`). -/
def typeAt (bytes : List Nat) (off : Nat) : Nat :=
  readU32 bytes off

/-- The `size` field of the tag header at byte offset `off`. -/
def sizeAt (bytes : List Nat) (off : Nat) : Nat :=
  readU32 bytes (off + 4)

/-- Round a tag size up to the next multiple of 8
(multiboot2.rs line 152: `((tag.size + 7) / 8) * 8`). -/
def roundUp8 (s : Nat) : Nat :=
  (s + 7) / 8 * 8

/-- Offset of the next tag header after the tag at `off`
(multiboot2.rs line 153: `offset += size`). -/
def chainStep (bytes : List Nat) (off : Nat) : Nat :=
  off + roundUp8 (sizeAt bytes off)

/-- The tag walk of `Multiboot2BootInfo::for_each_tag` (multiboot2.rs lines
133-156), with an explicit fuel bound.  The result is the list of byte
offsets of the tags the visitor closure is invoked on, in visiting order;
`none` means the fuel ran out, which (for fuel larger than the number of
possible productive iterations) models the real loop running forever. -/
def walkTags (bytes : List Nat) (total : Nat) : Nat → Nat → Option (List Nat)
  | 0, _ => none
  | fuel + 1, offset =>
    if offset < total then
      if typeAt bytes offset = 0 then some []
      else
        match walkTags bytes total fuel (chainStep bytes offset) with
        | none => none
        | some rest => some (offset :: rest)
    else some []

/-- The chain of `k` consecutive tag offsets starting at `off`. -/
def chainList (bytes : List Nat) : Nat → Nat → List Nat
  | 0, _ => []
  | k + 1, off => off :: chainList bytes k (chainStep bytes off)

/-- The tagged-stream adapter (multiboot2.rs, `struct Multiboot2BootInfo`):
a raw pointer to the information blob, modelled as the blob's base address
together with its bytes. -/
structure Multiboot2BootInfo where
  base : Nat
  bytes : List Nat

namespace Multiboot2BootInfo

/-- The `total_size` header field of the blob (multiboot2.rs line 139). -/
def total_size (s : Multiboot2BootInfo) : Nat :=
  readU32 s.bytes 0

/-- The offsets of the tags visited by `for_each_tag`, starting at offset 8.
Since every productive iteration advances the offset by at least 8, fuel
`total_size + 1` is exhausted only when the walk loops forever at a fixed
offset (a non-end tag whose size rounds to 0). -/
def visitedTags (s : Multiboot2BootInfo) : Option (List Nat) :=
  walkTags s.bytes s.total_size (s.total_size + 1) 8

/-- `Multiboot2BootInfo::get_tag` (multiboot2.rs lines 159-167): the visitor
closure overwrites `result` on every tag whose type matches, so the value
after the walk is the offset of the last matching visited tag.  `.diverges`
propagates a non-terminating walk. -/
def get_tag (s : Multiboot2BootInfo) (ty : Nat) : RunResult (Option Nat) :=
  match s.visitedTags with
  | none => .diverges
  | some l => .ok ((l.filter (fun off => typeAt s.bytes off == ty)).getLast?)

end Multiboot2BootInfo

/-- Pixel-format classification of the live handshake adapter
(limine_entry.rs lines 117-125): the code checks only `memory_model` and
`red_mask_shift`; `red_mask_size` is never read. -/
def liminePixelFormat (memory_model red_mask_shift : Nat) : PixelFormat :=
  if memory_model = 1 then
    if red_mask_shift = 16 then PixelFormat.Rgb else PixelFormat.Bgr
  else PixelFormat.Unknown

/-- Pixel-format classification of the second (unreachable) handshake
adapter variant in boot_info.rs lines 185-191, which additionally requires
`red_mask_size = 8` for both the RGB and the BGR case. -/
def bootInfoLiminePixelFormat (memory_model red_mask_size red_mask_shift : Nat) :
    PixelFormat :=
  if memory_model = 1 ∧ red_mask_size = 8 ∧ red_mask_shift = 16 then PixelFormat.Rgb
  else if memory_model = 1 ∧ red_mask_size = 8 ∧ red_mask_shift = 0 then PixelFormat.Bgr
  else PixelFormat.Unknown

/-- The pixel-format heuristic exactly as the specification words it
(spec §4.3 item 5): RGB needs `memory-model = 1`, `red-mask-size = 8` and
`red-mask-shift = 16`; BGR needs `memory-model = 1` and `red-mask-shift = 0`
(no size condition); anything else is Unknown.  Kept separate from the two
implementations above so the claim can be compared against the code. -/
def specClaimedPixelFormat (memory_model red_mask_size red_mask_shift : Nat) :
    PixelFormat :=
  if memory_model = 1 ∧ red_mask_size = 8 ∧ red_mask_shift = 16 then PixelFormat.Rgb
  else if memory_model = 1 ∧ red_mask_shift = 0 then PixelFormat.Bgr
  else PixelFormat.Unknown

/-- One framebuffer descriptor of the handshake protocol
(limine_entry.rs, `struct LimineFramebuffer`). -/
structure LimineFramebuffer where
  address : Nat
  width : Nat
  height : Nat
  pitch : Nat
  bpp : Nat
  memory_model : Nat
  red_mask_size : Nat
  red_mask_shift : Nat
  green_mask_size : Nat
  green_mask_shift : Nat
  blue_mask_size : Nat
  blue_mask_shift : Nat
  deriving DecidableEq, Repr

/-- The handshake adapter (limine_entry.rs, `struct LimineBootInfo`):
the framebuffer reference and RSDP address recovered at entry. -/
structure LimineBootInfo where
  framebuffer : Option LimineFramebuffer
  rsdp : Option Nat
  deriving DecidableEq, Repr

namespace LimineBootInfo

/-- `LimineBootInfo::framebuffer_info` (limine_entry.rs lines 115-136):
`bytes_per_pixel = (bpp + 7) / 8`, `stride = pitch / bytes_per_pixel`;
a zero divisor (`bpp = 0`) makes the Rust `usize` division panic. -/
def framebuffer_info (s : LimineBootInfo) : RunResult (Option FrameBufferInfo) :=
  match s.framebuffer with
  | none => .ok none
  | some fb =>
    let bytes_per_pixel := (fb.bpp + 7) / 8
    if bytes_per_pixel = 0 then .panics
    else
      .ok (some
        { width := fb.width
          height := fb.height
          stride := fb.pitch / bytes_per_pixel
          pixel_format := liminePixelFormat fb.memory_model fb.red_mask_shift
          bytes_per_pixel := bytes_per_pixel
          physical_address := fb.address })

/-- `LimineBootInfo::framebuffer_address` (limine_entry.rs lines 138-140). -/
def framebuffer_address (s : LimineBootInfo) : Option Nat :=
  s.framebuffer.map (fun fb => fb.address)

/-- `LimineBootInfo::rsdp_address` (limine_entry.rs lines 146-148). -/
def rsdp_address (s : LimineBootInfo) : Option Nat :=
  s.rsdp

end LimineBootInfo

/-- A fulfilled framebuffer response record (limine_entry.rs,
`struct LimineFramebufferResponse`).  The `framebuffers` field is a
possibly-null pointer to an array of possibly-null framebuffer pointers;
only the first array entry is ever read, so the model keeps the null-ness
of the array pointer (outer `Option`) and the first entry it points to
(inner `Option`). -/
structure LimineFramebufferResponse where
  revision : Nat
  framebuffer_count : Nat
  framebuffers : Option (Option LimineFramebuffer)

/-- A fulfilled RSDP response record (limine_entry.rs,
`struct LimineRsdpResponse`); `address` is a possibly-null pointer. -/
structure LimineRsdpResponse where
  revision : Nat
  address : Option Nat

/-- The state of the three static request records at kernel entry: for each
request, `none` models a response pointer the bootloader left null. -/
structure LimineRequests where
  fbResponse : Option LimineFramebufferResponse
  rsdpResponse : Option LimineRsdpResponse

/-- `parse_limine_info` (limine_entry.rs lines 171-207): dereference each
non-null response pointer; a null response pointer, a zero framebuffer
count, a null framebuffer array pointer, a null first framebuffer pointer
or a null RSDP address all yield `none` for the corresponding fact. -/
def parseLimineInfo (req : LimineRequests) : LimineBootInfo :=
  { framebuffer :=
      match req.fbResponse with
      | none => none
      | some r =>
        if r.framebuffer_count > 0 then
          match r.framebuffers with
          | none => none
          | some fb => fb
        else none
    rsdp :=
      match req.rsdpResponse with
      | none => none
      | some r => r.address }

/-- The outcome of a kernel entry function: either the CPU is halted
forever (the panic handler's `hlt` loop), or an adapter has been
constructed around the given blob pointer and control handed to the
protocol-independent kernel initialization. -/
inductive EntryOutcome where
  | halted : EntryOutcome
  | handedOff : Nat → EntryOutcome
  deriving DecidableEq, Repr

/-- The fixed magic word a Multiboot 2 bootloader passes to the kernel
(multiboot2.rs line 252). -/
def MULTIBOOT2_BOOT_MAGIC : Nat := 0x36d76289

/-- `_start_multiboot2` (multiboot2.rs lines 249-266): a wrong magic word
panics (and the panic handler at lines 270-281 halts forever) before the
adapter is constructed and before the blob pointer is ever dereferenced;
the correct magic word constructs `Multiboot2BootInfo` around `info_ptr`
and hands off to `kernel_main_multiboot2`.  The function depends only on
the pointer value, never on the blob's contents. -/
def startMultiboot2 (info_ptr magic : Nat) : EntryOutcome :=
  if magic ≠ MULTIBOOT2_BOOT_MAGIC then EntryOutcome.halted
  else EntryOutcome.handedOff info_ptr

/-- Interpretation of the `FramebufferTag` (multiboot2.rs lines 79-92) at
byte offset `off`, as performed by `Multiboot2BootInfo::framebuffer_info`
(lines 171-190): `addr` at `off+8`, `pitch` at `off+16`, `width` at
`off+20`, `height` at `off+24`, `bpp` at `off+28`; pixel format hardcoded
to RGB; `bytes_per_pixel = bpp / 8`; `stride = pitch / bytes_per_pixel`.
A zero divisor (`bpp < 8`) makes the Rust `u32` division panic. -/
def fbInfoAt (bytes : List Nat) (off : Nat) : RunResult (Option FrameBufferInfo) :=
  let bpp := readU8 bytes (off + 28)
  let bytes_per_pixel := bpp / 8
  if bytes_per_pixel = 0 then .panics
  else
    .ok (some
      { width := readU32 bytes (off + 20)
        height := readU32 bytes (off + 24)
        stride := readU32 bytes (off + 16) / bytes_per_pixel
        pixel_format := PixelFormat.Rgb
        bytes_per_pixel := bytes_per_pixel
        physical_address := readU64 bytes (off + 8) })

namespace Multiboot2BootInfo

/-- `Multiboot2BootInfo::framebuffer_info` (multiboot2.rs lines 171-190). -/
def framebuffer_info (s : Multiboot2BootInfo) : RunResult (Option FrameBufferInfo) :=
  match s.get_tag 8 with
  | .diverges => .diverges
  | .panics => .panics
  | .ok none => .ok none
  | .ok (some off) => fbInfoAt s.bytes off

/-- `Multiboot2BootInfo::rsdp_address` (multiboot2.rs lines 205-223): try
the new ACPI RSDP tag (type 15) first, then fall back to the old one
(type 14); the returned address is `rsdp_tag.rsdp.as_ptr()`, i.e. the
address of the tag's payload, 8 bytes past the tag header. -/
def rsdp_address (s : Multiboot2BootInfo) : RunResult (Option Nat) :=
  match s.get_tag 15 with
  | .diverges => .diverges
  | .panics => .panics
  | .ok (some off) => .ok (some (s.base + off + 8))
  | .ok none =>
    match s.get_tag 14 with
    | .diverges => .diverges
    | .panics => .panics
    | .ok (some off) => .ok (some (s.base + off + 8))
    | .ok none => .ok none

end Multiboot2BootInfo

/-! Concrete test blobs.  Every blob begins with the 8-byte header
`{total_size, reserved}`; tag offsets are counted from the blob's start. -/

/-- The 32-byte blob of the spec's scenario, taken literally: header with
`total_size = 32`, a framebuffer tag with declared `size = 16` (room only
for `tag_type`, `size` and `addr = 0xB8000`), and an 8-byte end tag at
offset 24. -/
def scenarioLiteralBytes : List Nat :=
  u32le 32 ++ u32le 0 ++
  u32le 8 ++ u32le 16 ++ u64le 0xB8000 ++
  u32le 0 ++ u32le 8

/-- The adapter over `scenarioLiteralBytes` at base address 0. -/
def scenarioLiteralInfo : Multiboot2BootInfo :=
  { base := 0, bytes := scenarioLiteralBytes }

/-- A 48-byte blob whose framebuffer tag actually carries the scenario's
fields: `total_size = 48`, a framebuffer tag with `size = 32` holding
`addr = 0xB8000`, `pitch = 160`, `width = 80`, `height = 25`, `bpp = 8`,
`type = 0`, and an end tag at offset 40. -/
def scenarioFixedBytes : List Nat :=
  u32le 48 ++ u32le 0 ++
  u32le 8 ++ u32le 32 ++ u64le 0xB8000 ++ u32le 160 ++ u32le 80 ++ u32le 25 ++ [8, 0, 0, 0] ++
  u32le 0 ++ u32le 8

/-- The adapter over `scenarioFixedBytes` at base address 0. -/
def scenarioFixedInfo : Multiboot2BootInfo :=
  { base := 0, bytes := scenarioFixedBytes }

/-- An 80-byte blob with two framebuffer tags: one at offset 8
(`addr = 0x1000`, `pitch = 4`, `width = 1`, `height = 1`, `bpp = 32`) and
one at offset 40 (`addr = 0x2000`, `pitch = 8`, `width = 2`, `height = 2`,
`bpp = 32`), then an end tag at offset 72. -/
def twoFbBytes : List Nat :=
  u32le 80 ++ u32le 0 ++
  u32le 8 ++ u32le 32 ++ u64le 0x1000 ++ u32le 4 ++ u32le 1 ++ u32le 1 ++ [32, 1, 0, 0] ++
  u32le 8 ++ u32le 32 ++ u64le 0x2000 ++ u32le 8 ++ u32le 2 ++ u32le 2 ++ [32, 1, 0, 0] ++
  u32le 0 ++ u32le 8

/-- The adapter over `twoFbBytes` at base address 0. -/
def twoFbInfo : Multiboot2BootInfo :=
  { base := 0, bytes := twoFbBytes }

/-- A 32-byte blob with an old ACPI RSDP tag (type 14) at offset 8, a new
ACPI RSDP tag (type 15) at offset 16 and an end tag at offset 24. -/
def rsdpBothBytes : List Nat :=
  u32le 32 ++ u32le 0 ++
  u32le 14 ++ u32le 8 ++
  u32le 15 ++ u32le 8 ++
  u32le 0 ++ u32le 8

/-- The adapter over `rsdpBothBytes` at base address 0. -/
def rsdpBothInfo : Multiboot2BootInfo :=
  { base := 0, bytes := rsdpBothBytes }

/-- A 48-byte blob whose framebuffer tag declares `pitch = 8` but
`width = 80` at `bpp = 8`, so one row of pixels needs 80 bytes while the
declared pitch is only 8. -/
def shortPitchBytes : List Nat :=
  u32le 48 ++ u32le 0 ++
  u32le 8 ++ u32le 32 ++ u64le 0xB8000 ++ u32le 8 ++ u32le 80 ++ u32le 25 ++ [8, 0, 0, 0] ++
  u32le 0 ++ u32le 8

/-- The adapter over `shortPitchBytes` at base address 0. -/
def shortPitchInfo : Multiboot2BootInfo :=
  { base := 0, bytes := shortPitchBytes }

/-- The `FrameBufferInfo` produced by the tagged-stream adapter on
`shortPitchBytes`. -/
def fbiShortPitch : FrameBufferInfo :=
  { width := 80, height := 25, stride := 8, pixel_format := PixelFormat.Rgb,
    bytes_per_pixel := 1, physical_address := 0xB8000 }

/-- A handshake framebuffer record with memory model 1, red mask size 0 and
red mask shift 16 (a combination outside the spec's RGB/BGR cases). -/
def fbMaskSizeZero : LimineFramebuffer :=
  { address := 0xE0000000, width := 100, height := 50, pitch := 400, bpp := 32,
    memory_model := 1, red_mask_size := 0, red_mask_shift := 16,
    green_mask_size := 8, green_mask_shift := 8,
    blue_mask_size := 8, blue_mask_shift := 0 }

/-- A standard handshake framebuffer record: memory model 1, red mask size
8, red mask shift 16 (the RGB case). -/
def fbRgbStandard : LimineFramebuffer :=
  { address := 0xE0000000, width := 100, height := 50, pitch := 400, bpp := 32,
    memory_model := 1, red_mask_size := 8, red_mask_shift := 16,
    green_mask_size := 8, green_mask_shift := 8,
    blue_mask_size := 8, blue_mask_shift := 0 }

/-- The request state in which the bootloader honored no request: both
response pointers are null. -/
def nullRequests : LimineRequests :=
  { fbResponse := none, rsdpResponse := none }

/-- Claim C9 (counterexample): the spec's 32-byte scenario blob, taken
literally, does not produce the claimed result.  A framebuffer tag of
declared size 16 ends at offset 24, exactly where the end tag starts, so
the `width` field the code reads at offset 28 overlaps the end tag's
`size` field and reads 8, not 80; the `bpp` byte at offset 36 lies past
the 32-byte blob altogether (0 in this model), so the division
`pitch / (bpp / 8)` panics.  Either way the claimed
`Some {width: 80, ...}` is not returned. -/
theorem c9_counterexample :
    scenarioLiteralInfo.visitedTags = some [8] ∧
    readU32 scenarioLiteralBytes 28 = 8 ∧
    scenarioLiteralInfo.framebuffer_info ≠ RunResult.ok (some
      { width := 80, height := 25, stride := 160, pixel_format := PixelFormat.Rgb,
        bytes_per_pixel := 1, physical_address := 0xB8000 }) := by
  decide

/-- Claim C9 (amended): on the 48-byte blob whose framebuffer tag has
declared size 32 and actually carries `address = 0xB8000`, `pitch = 160`,
`width = 80`, `height = 25`, `bpp = 8`, `type = 0`, followed by an end
tag, `framebuffer_info` returns exactly the claimed record
`{width: 80, height: 25, stride: 160, pixel_format: RGB,
bytes_per_pixel: 1, physical_address: 0xB8000}` and `rsdp_address`
returns `None`. -/
theorem c9_scenario :
    scenarioFixedInfo.framebuffer_info = RunResult.ok (some
      { width := 80, height := 25, stride := 160, pixel_format := PixelFormat.Rgb,
        bytes_per_pixel := 1, physical_address := 0xB8000 }) ∧
    scenarioFixedInfo.rsdp_address = RunResult.ok none := by
  decide

/-- Claim C4 (counterexample): on a blob with two framebuffer tags (at
offsets 8 and 40), `framebuffer_info` derives its result from the tag at
offset 40 — the last one, not the first one at the lowest offset — and
the two tags decode to different records. -/
theorem c4_counterexample :
    typeAt twoFbBytes 8 = 8 ∧ typeAt twoFbBytes 40 = 8 ∧
    twoFbInfo.visitedTags = some [8, 40] ∧
    twoFbInfo.framebuffer_info = fbInfoAt twoFbBytes 40 ∧
    fbInfoAt twoFbBytes 40 ≠ fbInfoAt twoFbBytes 8 := by
  decide

/-- Claim C4 (amended): for every tagged-stream blob whose tag walk
terminates, `framebuffer_info` derives its result from the LAST
framebuffer tag the walk visits (the closure in `get_tag` overwrites its
result on every match). -/
theorem c4_last_framebuffer_tag (s : Multiboot2BootInfo) (l : List Nat) (off : Nat)
    (hw : s.visitedTags = some l)
    (hlast : (l.filter (fun o => typeAt s.bytes o == 8)).getLast? = some off) :
    s.framebuffer_info = fbInfoAt s.bytes off := by
  unfold Multiboot2BootInfo.framebuffer_info Multiboot2BootInfo.get_tag
  rw [hw]
  simp [hlast]

/-- Witness for C4's amended theorem at the two-framebuffer blob. -/
theorem c4_last_framebuffer_tag_witness :
    twoFbInfo.framebuffer_info = fbInfoAt twoFbBytes 40 :=
  c4_last_framebuffer_tag twoFbInfo [8, 40] 40 (by decide) (by decide)

/-- Claim C2: for every terminating tagged-stream blob, `rsdp_address`
takes the payload address of the last new-format RSDP tag (type 15) when
one is present; otherwise the payload address of the last old-format tag
(type 14) when one is present; otherwise it returns `None`.  In
particular a blob containing both tag kinds yields the new tag's address,
a blob with only the old tag yields the old tag's address, and a blob
with neither yields `None`. -/
theorem c2_rsdp_tiebreak (s : Multiboot2BootInfo) (l : List Nat)
    (hw : s.visitedTags = some l) :
    (∀ o15, (l.filter (fun o => typeAt s.bytes o == 15)).getLast? = some o15 →
        s.rsdp_address = RunResult.ok (some (s.base + o15 + 8))) ∧
    (l.filter (fun o => typeAt s.bytes o == 15) = [] →
      ∀ o14, (l.filter (fun o => typeAt s.bytes o == 14)).getLast? = some o14 →
        s.rsdp_address = RunResult.ok (some (s.base + o14 + 8))) ∧
    (l.filter (fun o => typeAt s.bytes o == 15) = [] →
      l.filter (fun o => typeAt s.bytes o == 14) = [] →
        s.rsdp_address = RunResult.ok none) := by
  unfold Multiboot2BootInfo.rsdp_address Multiboot2BootInfo.get_tag
  rw [hw]
  refine ⟨?_, ?_, ?_⟩
  · intro o15 h15
    simp [h15]
  · intro h15 o14 h14
    simp [h15, h14]
  · intro h15 h14
    simp [h15, h14]

/-- Witness for C2 at a blob holding both an old (offset 8) and a new
(offset 16) RSDP tag: the result is the new tag's payload address. -/
theorem c2_rsdp_tiebreak_witness :
    rsdpBothInfo.rsdp_address = RunResult.ok (some 24) :=
  (c2_rsdp_tiebreak rsdpBothInfo [8, 16] (by decide)).1 16 (by decide)

/-- Claim C1 (counterexample): the live handshake adapter
(limine_entry.rs) classifies memory model 1, red mask size 0, red mask
shift 16 as RGB, although that combination falls under the claim's "any
other combination ⇒ Unknown" case; and the variant in boot_info.rs
classifies memory model 1, red mask size 0, red mask shift 0 as Unknown,
although the claim's BGR case (memory model 1, red mask shift 0, no size
condition) covers it.  The claim therefore matches neither
implementation. -/
theorem c1_counterexample :
    LimineBootInfo.framebuffer_info { framebuffer := some fbMaskSizeZero, rsdp := none } =
      RunResult.ok (some
        { width := 100, height := 50, stride := 100,
          pixel_format := PixelFormat.Rgb, bytes_per_pixel := 4,
          physical_address := 0xE0000000 }) ∧
    specClaimedPixelFormat 1 0 16 = PixelFormat.Unknown ∧
    PixelFormat.Rgb ≠ PixelFormat.Unknown ∧
    specClaimedPixelFormat 1 0 0 = PixelFormat.Bgr ∧
    bootInfoLiminePixelFormat 1 0 0 = PixelFormat.Unknown := by
  decide

/-- Claim C1 (amended): for the handshake adapter used at kernel entry
(limine_entry.rs), the pixel format of every record returned by
`framebuffer_info` is RGB exactly when memory model = 1 and red mask
shift = 16, BGR exactly when memory model = 1 and red mask shift ≠ 16,
and Unknown exactly when memory model ≠ 1; the red mask size is never
consulted. -/
theorem c1_pixel_format (s : LimineBootInfo) (fb : LimineFramebuffer)
    (fbi : FrameBufferInfo)
    (hfb : s.framebuffer = some fb)
    (hok : s.framebuffer_info = RunResult.ok (some fbi)) :
    (fbi.pixel_format = PixelFormat.Rgb ↔
        fb.memory_model = 1 ∧ fb.red_mask_shift = 16) ∧
    (fbi.pixel_format = PixelFormat.Bgr ↔
        fb.memory_model = 1 ∧ fb.red_mask_shift ≠ 16) ∧
    (fbi.pixel_format = PixelFormat.Unknown ↔ fb.memory_model ≠ 1) := by
  have hpf : fbi.pixel_format = liminePixelFormat fb.memory_model fb.red_mask_shift := by
    unfold LimineBootInfo.framebuffer_info at hok
    rw [hfb] at hok
    by_cases hb : (fb.bpp + 7) / 8 = 0
    · simp [hb] at hok
    · simp [hb] at hok
      rw [← hok]
  rw [hpf]
  unfold liminePixelFormat
  by_cases hm : fb.memory_model = 1 <;> by_cases hs : fb.red_mask_shift = 16 <;>
    simp [hm, hs]

/-- Witness for C1's amended theorem: the standard RGB record. -/
theorem c1_pixel_format_witness :
    ({ width := 100, height := 50, stride := 100, pixel_format := PixelFormat.Rgb,
       bytes_per_pixel := 4, physical_address := 0xE0000000 } :
        FrameBufferInfo).pixel_format = PixelFormat.Rgb := by
  have h := c1_pixel_format { framebuffer := some fbRgbStandard, rsdp := none }
    fbRgbStandard
    { width := 100, height := 50, stride := 100, pixel_format := PixelFormat.Rgb,
      bytes_per_pixel := 4, physical_address := 0xE0000000 }
    rfl (by decide)
  exact h.1.mpr ⟨rfl, rfl⟩

/-- Claim C5: in the handshake adapter, a null framebuffer response
pointer makes `framebuffer_info` return `None` (normally, without
panicking) and `framebuffer_address` return `None`, and a null RSDP
response pointer makes `rsdp_address` return `None`. -/
theorem c5_null_response (req : LimineRequests) :
    (req.fbResponse = none →
      (parseLimineInfo req).framebuffer_info = RunResult.ok none ∧
      (parseLimineInfo req).framebuffer_address = none) ∧
    (req.rsdpResponse = none →
      (parseLimineInfo req).rsdp_address = none) := by
  constructor
  · intro h
    constructor <;>
      simp [parseLimineInfo, h, LimineBootInfo.framebuffer_info,
        LimineBootInfo.framebuffer_address]
  · intro h
    simp [parseLimineInfo, h, LimineBootInfo.rsdp_address]

/-- Witness for C5 at the request state with both response pointers null. -/
theorem c5_null_response_witness :
    (parseLimineInfo nullRequests).framebuffer_info = RunResult.ok none ∧
    (parseLimineInfo nullRequests).framebuffer_address = none ∧
    (parseLimineInfo nullRequests).rsdp_address = none :=
  ⟨((c5_null_response nullRequests).1 rfl).1,
   ((c5_null_response nullRequests).1 rfl).2,
   (c5_null_response nullRequests).2 rfl⟩

/-- Claim C6: the tagged-stream entry point halts forever when the magic
word differs from 0x36d76289 — and in that case its outcome does not
depend on the blob pointer, which is never dereferenced — while the
correct magic word constructs the adapter around the blob pointer and
hands off to kernel initialization. -/
theorem c6_magic_validation :
    (∀ p m, m ≠ MULTIBOOT2_BOOT_MAGIC →
        startMultiboot2 p m = EntryOutcome.halted) ∧
    (∀ p q m, m ≠ MULTIBOOT2_BOOT_MAGIC →
        startMultiboot2 p m = startMultiboot2 q m) ∧
    (∀ p, startMultiboot2 p MULTIBOOT2_BOOT_MAGIC = EntryOutcome.handedOff p) := by
  refine ⟨?_, ?_, ?_⟩ <;> intros <;> simp [startMultiboot2, *]

/-- Witness for C6: magic word 0 halts; the right magic word hands off. -/
theorem c6_magic_validation_witness :
    startMultiboot2 0 0 = EntryOutcome.halted ∧
    startMultiboot2 0 MULTIBOOT2_BOOT_MAGIC = EntryOutcome.handedOff 0 :=
  ⟨c6_magic_validation.1 0 0 (by decide), c6_magic_validation.2.2 0⟩

/-- Dividing a pitch that is at least `w * b` bytes per row by `b` and
multiplying back cannot drop below `w * b`. -/
theorem width_le_div_mul {p w b : Nat} (hb : b ≠ 0) (h : w * b ≤ p) :
    w * b ≤ p / b * b := by
  have hw : w ≤ p / b := by
    have hdiv : w * b / b ≤ p / b := Nat.div_le_div_right h
    rwa [Nat.mul_div_cancel w (Nat.pos_of_ne_zero hb)] at hdiv
  exact Nat.mul_le_mul_right b hw

/-- Claim C7 (counterexample): the tagged-stream adapter returns a
`FrameBufferInfo` violating `stride * bytes_per_pixel >=
width * bytes_per_pixel` when the blob's framebuffer tag declares a pitch
(8) smaller than one row of pixels (80 pixels at 1 byte each); no adapter
validates the invariant. -/
theorem c7_counterexample :
    shortPitchInfo.framebuffer_info = RunResult.ok (some fbiShortPitch) ∧
    fbiShortPitch.stride * fbiShortPitch.bytes_per_pixel <
      fbiShortPitch.width * fbiShortPitch.bytes_per_pixel := by
  decide

/-- Claim C7 (amended): every `FrameBufferInfo` the tagged-stream or the
handshake adapter returns satisfies `stride * bytes_per_pixel >=
width * bytes_per_pixel`, provided the underlying record's pitch is at
least `width * bytes_per_pixel` — i.e. the declared pitch covers one row
of pixels, possibly with padding.  The adapters perform no such
validation themselves, so the invariant is conditional on the
bootloader-supplied data. -/
theorem c7_stride_invariant :
    (∀ (s : Multiboot2BootInfo) (off : Nat) (fbi : FrameBufferInfo),
      s.get_tag 8 = RunResult.ok (some off) →
      readU32 s.bytes (off + 20) * (readU8 s.bytes (off + 28) / 8) ≤
        readU32 s.bytes (off + 16) →
      s.framebuffer_info = RunResult.ok (some fbi) →
      fbi.width * fbi.bytes_per_pixel ≤ fbi.stride * fbi.bytes_per_pixel) ∧
    (∀ (s : LimineBootInfo) (fb : LimineFramebuffer) (fbi : FrameBufferInfo),
      s.framebuffer = some fb →
      fb.width * ((fb.bpp + 7) / 8) ≤ fb.pitch →
      s.framebuffer_info = RunResult.ok (some fbi) →
      fbi.width * fbi.bytes_per_pixel ≤ fbi.stride * fbi.bytes_per_pixel) := by
  constructor
  · intro s off fbi hget hpitch hok
    unfold Multiboot2BootInfo.framebuffer_info at hok
    rw [hget] at hok
    unfold fbInfoAt at hok
    by_cases hb : readU8 s.bytes (off + 28) / 8 = 0
    · simp [hb] at hok
    · simp [hb] at hok
      rw [← hok]
      exact width_le_div_mul hb hpitch
  · intro s fb fbi hfb hpitch hok
    unfold LimineBootInfo.framebuffer_info at hok
    rw [hfb] at hok
    by_cases hb : (fb.bpp + 7) / 8 = 0
    · simp [hb] at hok
    · simp [hb] at hok
      rw [← hok]
      exact width_le_div_mul hb hpitch

/-- Witness for C7's amended theorem on both adapters: the 48-byte
scenario blob (pitch 160 ≥ 80 pixels × 1 byte) and the standard
handshake record (pitch 400 ≥ 100 pixels × 4 bytes). -/
theorem c7_stride_invariant_witness :
    (80 * 1 ≤ 160 * 1) ∧ (100 * 4 ≤ 100 * 4) :=
  ⟨c7_stride_invariant.1 scenarioFixedInfo 8
      { width := 80, height := 25, stride := 160, pixel_format := PixelFormat.Rgb,
        bytes_per_pixel := 1, physical_address := 0xB8000 }
      (by decide) (by decide) (by decide),
   c7_stride_invariant.2 { framebuffer := some fbRgbStandard, rsdp := none }
      fbRgbStandard
      { width := 100, height := 50, stride := 100, pixel_format := PixelFormat.Rgb,
        bytes_per_pixel := 4, physical_address := 0xE0000000 }
      rfl (by decide) (by decide)⟩

/-- Claim C10: the stride computation divides by `bytes_per_pixel` with no
zero-divisor guard.  In the tagged-stream adapter the divisor
`bpp / 8` is zero exactly when the tag's `bpp` byte is below 8, and under
the precondition `bpp ≥ 8` the accessor returns normally without
panicking; in the handshake adapter the divisor `(bpp + 7) / 8` is zero
exactly when `bpp = 0`, and under `bpp ≥ 1` the accessor returns
normally. -/
theorem c10_division_guard :
    (∀ (s : Multiboot2BootInfo) (off : Nat),
      readU8 s.bytes (off + 28) / 8 = 0 ↔ readU8 s.bytes (off + 28) < 8) ∧
    (∀ (s : Multiboot2BootInfo) (off : Nat),
      s.get_tag 8 = RunResult.ok (some off) →
      8 ≤ readU8 s.bytes (off + 28) →
      ∃ fbi, s.framebuffer_info = RunResult.ok (some fbi)) ∧
    (∀ bpp : Nat, (bpp + 7) / 8 = 0 ↔ bpp = 0) ∧
    (∀ (s : LimineBootInfo) (fb : LimineFramebuffer),
      s.framebuffer = some fb → 1 ≤ fb.bpp →
      ∃ fbi, s.framebuffer_info = RunResult.ok (some fbi)) := by
  refine ⟨?_, ?_, ?_, ?_⟩
  · intro s off
    omega
  · intro s off hget hbpp
    have hb : readU8 s.bytes (off + 28) / 8 ≠ 0 := by omega
    refine ⟨{ width := readU32 s.bytes (off + 20), height := readU32 s.bytes (off + 24),
              stride := readU32 s.bytes (off + 16) / (readU8 s.bytes (off + 28) / 8),
              pixel_format := PixelFormat.Rgb,
              bytes_per_pixel := readU8 s.bytes (off + 28) / 8,
              physical_address := readU64 s.bytes (off + 8) }, ?_⟩
    unfold Multiboot2BootInfo.framebuffer_info
    rw [hget]
    simp [fbInfoAt, hb]
  · intro bpp
    omega
  · intro s fb hfb hbpp
    have hb : (fb.bpp + 7) / 8 ≠ 0 := by omega
    refine ⟨{ width := fb.width, height := fb.height,
              stride := fb.pitch / ((fb.bpp + 7) / 8),
              pixel_format := liminePixelFormat fb.memory_model fb.red_mask_shift,
              bytes_per_pixel := (fb.bpp + 7) / 8,
              physical_address := fb.address }, ?_⟩
    unfold LimineBootInfo.framebuffer_info
    rw [hfb]
    simp [hb]

/-- Witness for C10 on both adapters: the 48-byte scenario blob
(`bpp = 8`) and the standard handshake record (`bpp = 32`). -/
theorem c10_division_guard_witness :
    (∃ fbi, scenarioFixedInfo.framebuffer_info = RunResult.ok (some fbi)) ∧
    (∃ fbi, LimineBootInfo.framebuffer_info
        { framebuffer := some fbRgbStandard, rsdp := none } =
      RunResult.ok (some fbi)) :=
  ⟨c10_division_guard.2.1 scenarioFixedInfo 8 (by decide) (by decide),
   c10_division_guard.2.2.2 { framebuffer := some fbRgbStandard, rsdp := none }
     fbRgbStandard rfl (by decide)⟩

/-- A terminating tag walk returns either the empty list or a list headed
by its starting offset. -/
theorem walkTags_head (bytes : List Nat) (total : Nat) :
    ∀ (fuel off : Nat) (l : List Nat),
      walkTags bytes total fuel off = some l → l = [] ∨ ∃ t, l = off :: t := by
  intro fuel off l h
  cases fuel with
  | zero => simp [walkTags] at h
  | succ fuel =>
    unfold walkTags at h
    by_cases h1 : off < total
    · by_cases h2 : typeAt bytes off = 0
      · simp [h1, h2] at h
        left
        exact h
      · simp [h1, h2] at h
        cases hw : walkTags bytes total fuel (chainStep bytes off) with
        | none => rw [hw] at h; simp at h
        | some rest =>
          rw [hw] at h
          simp at h
          right
          exact ⟨rest, h.symm⟩
    · simp [h1] at h
      left
      exact h

/-- Claim C8: along any terminating tag walk, each visited tag at offset
`o` with declared size `s` is followed by a tag-header read at offset
`o + ((s + 7) / 8) * 8`; in particular a tag of size 21 advances the
offset by 24, since `roundUp8 21 = 24`. -/
theorem c8_alignment :
    (∀ (bytes : List Nat) (total fuel off : Nat) (l : List Nat),
      walkTags bytes total fuel off = some l →
      List.Chain' (fun a b => b = a + (sizeAt bytes a + 7) / 8 * 8) l) ∧
    roundUp8 21 = 24 := by
  constructor
  · intro bytes total fuel
    induction fuel with
    | zero => intro off l h; simp [walkTags] at h
    | succ fuel ih =>
      intro off l h
      unfold walkTags at h
      by_cases h1 : off < total
      · by_cases h2 : typeAt bytes off = 0
        · simp [h1, h2] at h
          rw [h]
          exact List.chain'_nil
        · simp [h1, h2] at h
          cases hw : walkTags bytes total fuel (chainStep bytes off) with
          | none => rw [hw] at h; simp at h
          | some rest =>
            rw [hw] at h
            simp at h
            rw [← h]
            have hrest := ih (chainStep bytes off) rest hw
            rcases walkTags_head bytes total fuel (chainStep bytes off) rest hw with
              hr | ⟨t, ht⟩
            · rw [hr]
              exact List.chain'_singleton off
            · rw [ht] at hrest ⊢
              exact List.Chain'.cons rfl hrest
      · simp [h1] at h
        rw [h]
        exact List.chain'_nil
  · decide

/-- Witness for C8 on the two-framebuffer blob: its walk visits offsets 8
and 40, and 40 = 8 + roundUp8 32. -/
theorem c8_alignment_witness :
    List.Chain' (fun a b => b = a + (sizeAt twoFbBytes a + 7) / 8 * 8) [8, 40] ∧
    roundUp8 21 = 24 :=
  ⟨c8_alignment.1 twoFbBytes 80 81 8 [8, 40] (by decide), c8_alignment.2⟩

/-- A nonzero tag size rounds up to at least 8. -/
theorem roundUp8_eight_le {s : Nat} (hs : s ≠ 0) : 8 ≤ roundUp8 s := by
  unfold roundUp8
  omega

/-- A tag whose size rounds to 0 leaves the walk's offset unchanged. -/
theorem chainStep_fixed (bytes : List Nat) {off : Nat}
    (h : sizeAt bytes off = 0) : chainStep bytes off = off := by
  unfold chainStep roundUp8
  rw [h]
  omega

/-- The walk's offset never decreases along the chain. -/
theorem iterate_chainStep_le (bytes : List Nat) :
    ∀ (j off : Nat), off ≤ (chainStep bytes)^[j] off := by
  intro j
  induction j with
  | zero => intro off; simp
  | succ j ih =>
    intro off
    rw [Function.iterate_succ_apply]
    exact le_trans (Nat.le_add_right off (roundUp8 (sizeAt bytes off))) (ih _)

/-- If the end tag is reached after `k` steps and no earlier tag has type
0, then no earlier tag has size 0 either: a size-0 tag would pin the
chain at its own offset forever, and its type is not 0. -/
theorem chain_size_progress (bytes : List Nat) (off : Nat) (k : Nat)
    (htype : ∀ j < k, typeAt bytes ((chainStep bytes)^[j] off) ≠ 0)
    (hend : typeAt bytes ((chainStep bytes)^[k] off) = 0) :
    ∀ j < k, sizeAt bytes ((chainStep bytes)^[j] off) ≠ 0 := by
  intro j hj hsz
  have hfix : chainStep bytes ((chainStep bytes)^[j] off) =
      (chainStep bytes)^[j] off := chainStep_fixed bytes hsz
  have hkj : (chainStep bytes)^[k] off = (chainStep bytes)^[j] off := by
    have hk : k = (k - j) + j := by omega
    rw [hk, Function.iterate_add_apply]
    exact Function.iterate_fixed hfix (k - j)
  exact htype j hj (hkj ▸ hend)

/-- Along a chain of size-nonzero tags, the `j`-th offset is at least
`off + 8 * j`: every step advances by at least 8. -/
theorem iterate_chainStep_lower (bytes : List Nat) (off : Nat) (k : Nat)
    (hsz : ∀ j < k, sizeAt bytes ((chainStep bytes)^[j] off) ≠ 0) :
    ∀ j, j ≤ k → off + 8 * j ≤ (chainStep bytes)^[j] off := by
  intro j
  induction j with
  | zero => intro _; simp
  | succ j ih =>
    intro hj
    have hlow := ih (by omega)
    have h8 := roundUp8_eight_le (hsz j (by omega))
    rw [Function.iterate_succ_apply']
    have hstep : chainStep bytes ((chainStep bytes)^[j] off) =
        (chainStep bytes)^[j] off +
          roundUp8 (sizeAt bytes ((chainStep bytes)^[j] off)) := rfl
    omega

/-- Every chain offset is a chain member. -/
theorem chainList_mem (bytes : List Nat) :
    ∀ (k off j : Nat), j < k →
      (chainStep bytes)^[j] off ∈ chainList bytes k off := by
  intro k
  induction k with
  | zero => intro off j hj; omega
  | succ k ih =>
    intro off j hj
    cases j with
    | zero => simp [chainList]
    | succ j =>
      rw [Function.iterate_succ_apply]
      unfold chainList
      exact List.mem_cons_of_mem off (ih (chainStep bytes off) j (by omega))

/-- Every chain member is a chain offset. -/
theorem chainList_mem_inv (bytes : List Nat) :
    ∀ (k off : Nat) (x : Nat), x ∈ chainList bytes k off →
      ∃ j, j < k ∧ x = (chainStep bytes)^[j] off := by
  intro k
  induction k with
  | zero => intro off x hx; simp [chainList] at hx
  | succ k ih =>
    intro off x hx
    unfold chainList at hx
    rcases List.mem_cons.mp hx with hx | hx
    · exact ⟨0, by omega, by simpa using hx⟩
    · obtain ⟨j, hj, hx⟩ := ih (chainStep bytes off) x hx
      exact ⟨j + 1, by omega, by rw [Function.iterate_succ_apply]; exact hx⟩

/-- A chain all of whose tags have nonzero size is strictly increasing. -/
theorem chainList_pairwise (bytes : List Nat) :
    ∀ (k off : Nat),
      (∀ j < k, sizeAt bytes ((chainStep bytes)^[j] off) ≠ 0) →
      (chainList bytes k off).Pairwise (· < ·) := by
  intro k
  induction k with
  | zero => intro off _; simp [chainList]
  | succ k ih =>
    intro off hsz
    unfold chainList
    refine List.Pairwise.cons ?_ (ih (chainStep bytes off) ?_)
    · intro x hx
      obtain ⟨j, hj, rfl⟩ := chainList_mem_inv bytes k (chainStep bytes off) x hx
      have hs0 : sizeAt bytes off ≠ 0 := by
        have h0 := hsz 0 (by omega)
        simpa using h0
      have h8 := roundUp8_eight_le hs0
      have hstep : chainStep bytes off = off + roundUp8 (sizeAt bytes off) := rfl
      have hle := iterate_chainStep_le bytes j (chainStep bytes off)
      omega
    · intro j hj
      have := hsz (j + 1) (by omega)
      rwa [Function.iterate_succ_apply] at this

/-- With enough fuel, the walk starting at `off` returns exactly the chain
of the `k` tags preceding the end tag. -/
theorem walkTags_of_chain (bytes : List Nat) (total : Nat) :
    ∀ (k off fuel : Nat),
      (∀ j < k, (chainStep bytes)^[j] off < total ∧
          typeAt bytes ((chainStep bytes)^[j] off) ≠ 0) →
      (chainStep bytes)^[k] off < total →
      typeAt bytes ((chainStep bytes)^[k] off) = 0 →
      k < fuel →
      walkTags bytes total fuel off = some (chainList bytes k off) := by
  intro k
  induction k with
  | zero =>
    intro off fuel hmid hlt h0 hfuel
    obtain ⟨m, rfl⟩ : ∃ m, fuel = m + 1 := ⟨fuel - 1, by omega⟩
    simp only [Function.iterate_zero, id] at hlt h0
    unfold walkTags
    simp [hlt, h0, chainList]
  | succ k ih =>
    intro off fuel hmid hlt h0 hfuel
    obtain ⟨m, rfl⟩ : ∃ m, fuel = m + 1 := ⟨fuel - 1, by omega⟩
    have h8 := hmid 0 (by omega)
    simp only [Function.iterate_zero, id] at h8
    have hmid' : ∀ j < k, (chainStep bytes)^[j] (chainStep bytes off) < total ∧
        typeAt bytes ((chainStep bytes)^[j] (chainStep bytes off)) ≠ 0 := by
      intro j hj
      have := hmid (j + 1) (by omega)
      rwa [Function.iterate_succ_apply] at this
    have hlt' : (chainStep bytes)^[k] (chainStep bytes off) < total := by
      rw [← Function.iterate_succ_apply]
      exact hlt
    have h0' : typeAt bytes ((chainStep bytes)^[k] (chainStep bytes off)) = 0 := by
      rw [← Function.iterate_succ_apply]
      exact h0
    have hrec := ih (chainStep bytes off) m hmid' hlt' h0' (by omega)
    unfold walkTags
    simp [h8.1, h8.2, hrec, chainList]

/-- Claim C3: for every tagged-stream blob whose `total_size` admits an
end tag (type 0) reachable from offset 8 by repeatedly adding
`round_up(size, 8)` — with all intermediate offsets inside `total_size`
and carrying non-end tags — the tag walk terminates and returns exactly
the chain of the `k` non-end tags: each is visited (membership), exactly
once (the offsets are strictly increasing, hence pairwise distinct), and
the end tag is never visited (every visited offset has `tag_type ≠ 0`). -/
theorem c3_tag_walk (s : Multiboot2BootInfo) (k : Nat)
    (hmid : ∀ j < k, (chainStep s.bytes)^[j] 8 < s.total_size ∧
        typeAt s.bytes ((chainStep s.bytes)^[j] 8) ≠ 0)
    (hend : (chainStep s.bytes)^[k] 8 < s.total_size)
    (h0 : typeAt s.bytes ((chainStep s.bytes)^[k] 8) = 0) :
    s.visitedTags = some (chainList s.bytes k 8) ∧
    (chainList s.bytes k 8).Pairwise (· < ·) ∧
    (∀ j < k, (chainStep s.bytes)^[j] 8 ∈ chainList s.bytes k 8) ∧
    (∀ x ∈ chainList s.bytes k 8, typeAt s.bytes x ≠ 0) := by
  have hsz : ∀ j < k, sizeAt s.bytes ((chainStep s.bytes)^[j] 8) ≠ 0 :=
    chain_size_progress s.bytes 8 k (fun j hj => (hmid j hj).2) h0
  have hlow := iterate_chainStep_lower s.bytes 8 k hsz k (le_refl k)
  refine ⟨?_, chainList_pairwise s.bytes k 8 hsz,
    fun j hj => chainList_mem s.bytes k 8 j hj, ?_⟩
  · exact walkTags_of_chain s.bytes s.total_size k 8 (s.total_size + 1)
      hmid hend h0 (by omega)
  · intro x hx
    obtain ⟨j, hj, rfl⟩ := chainList_mem_inv s.bytes k 8 x hx
    exact (hmid j hj).2

/-- Witness for C3 at the 48-byte scenario blob: one non-end tag at
offset 8, the end tag reached after one step at offset 40. -/
theorem c3_tag_walk_witness :
    scenarioFixedInfo.visitedTags =
      some (chainList scenarioFixedInfo.bytes 1 8) ∧
    (chainList scenarioFixedInfo.bytes 1 8).Pairwise (· < ·) ∧
    (∀ j < 1, (chainStep scenarioFixedInfo.bytes)^[j] 8 ∈
        chainList scenarioFixedInfo.bytes 1 8) ∧
    (∀ x ∈ chainList scenarioFixedInfo.bytes 1 8,
        typeAt scenarioFixedInfo.bytes x ≠ 0) :=
  c3_tag_walk scenarioFixedInfo 1 (by decide) (by decide) (by decide)
